import Mathlib

/-!
# KbEye frontend real-time client: a shallow embedding

This development embeds the WebSocket service of the KbEye monitoring
dashboard (`frontend/src/services/websocket.service.js`, latest snapshot)
together with the log-buffer handler of `LogsViewer.jsx`, and proves the
specified properties of the reconnection / grace-period state machine.

The embedding follows the source closely:

* `WSState` mirrors the fields of the `WebSocketService` instance
  (`ws`, `reconnectAttempts`, `isManualDisconnect`, `pingInterval`,
  `disconnectionTimer`, `stableConnectionStatus`, plus the promise created
  by each `connect()` call).  Sockets are kept in a list so that events of
  a discarded ("zombie") socket can still be delivered, as in the browser.
* `step` runs one event-loop callback: the `onopen` / `onmessage` /
  `onclose` / `onerror` handlers, a grace-period timeout, a scheduled
  reconnection timeout, a heartbeat tick, or a public `connect()` /
  `disconnect()` call.  Timer callbacks are modelled as events whose
  admissibility (`okB`) requires the corresponding timer to be pending
  and due; other events may not be scheduled past a pending timeout
  deadline (event-loop punctuality).
* Outputs (`Out`) record the externally visible actions: `emitEvent`
  calls, transport sends, transport closes, socket creations and
  reconnection scheduling.
-/

namespace KbEye

/-- WebSocket `readyState` values, as in the `getConnectionStatus` switch. -/
inductive Ready
  | CONNECTING
  | OPEN
  | CLOSING
  | CLOSED
deriving DecidableEq

/-- One transport socket: its ready state and the index of the promise
created by the `connect()` call that constructed it (the handlers of a
socket settle exactly that promise). -/
structure Sock where
  ready : Ready
  promiseIdx : Nat
deriving DecidableEq

/-- The state of the deferred result returned by one `connect()` call. -/
inductive PromState
  | pending
  | resolved
  | rejected
deriving DecidableEq

/-- Configuration values read from `api.config.js` / environment. -/
structure Config where
  maxReconnectAttempts : Nat
  reconnectInterval : Nat
  pingIntervalTime : Nat
  gracePeriod : Nat
  wsEnabled : Bool

/-- A minimal JSON value, enough for the tagged messages the service
handles (`JSON.parse` output inspected via `data.type` / `data.data`). -/
inductive Json
  | str (s : String)
  | num (n : Int)
  | obj (fields : List (String × Json))

/-- Property lookup `j[key]` on a parsed value: `none` models the
JavaScript `undefined` (non-objects have no own properties). -/
def lookupField : List (String × Json) → String → Option Json
  | [], _ => none
  | (k, v) :: rest, key => if k = key then some v else lookupField rest key

/-- `data[key]` for a parsed JSON value. -/
def jLookup : Json → String → Option Json
  | .obj fields, key => lookupField fields key
  | _, _ => none

/-- `data.type === tag`: true exactly when the parsed value has a string
`type` property equal to `tag`. -/
def typeIs (j : Json) (tag : String) : Bool :=
  match jLookup j "type" with
  | some (.str s) => decide (s = tag)
  | _ => false

mutual

/-- `JSON.stringify` for the minimal JSON type (wire format of `send`). -/
def Json.stringify : Json → String
  | .str s => "\"" ++ s ++ "\""
  | .num n => toString n
  | .obj fields => "\x7b" ++ stringifyFields fields ++ "\x7d"

/-- Serialize the fields of a JSON object. -/
def stringifyFields : List (String × Json) → String
  | [] => ""
  | (k, v) :: rest =>
      "\"" ++ k ++ "\":" ++ Json.stringify v ++
        (if rest.isEmpty then "" else "," ++ stringifyFields rest)

end

/-- An inbound transport message, classified by whether `JSON.parse`
succeeds on it (the parser itself is a platform builtin). -/
inductive InMsg
  | parsable (j : Json)
  | unparsable (raw : String)

/-- Payload of a generic `message` event: either the parsed value or the
echo wrapper `\x7btype: 'echo', data: raw\x7d` built on parse failure. -/
inductive MsgPayload
  | parsed (j : Json)
  | echo (raw : String)

/-- Payload carried by an `emitEvent` call. -/
inductive EmitData
  | eventObj
  | statusPayload (s : String)
  | msgPayload (m : MsgPayload)
  | jsonPayload (j : Option Json)

/-- Externally visible actions of the service. -/
inductive Out
  | emit (event : String) (data : EmitData)
  | transportSend (s : String)
  | closeTransport (code : Option Nat)
  | newSocket (gen : Nat)
  | scheduleReconnect (delay : Nat)

/-- The mutable instance state of `WebSocketService`. -/
structure WSState where
  /-- all sockets ever constructed, by generation -/
  socks : List Sock
  /-- `this.ws`: index of the current socket, `none` for `null` -/
  cur : Option Nat
  reconnectAttempts : Nat
  isManualDisconnect : Bool
  /-- `this.pingInterval !== null` -/
  pingActive : Bool
  /-- absolute deadline of the pending grace-period timeout, if any -/
  disconnectionTimer : Option Nat
  /-- absolute deadlines of pending reconnection timeouts -/
  reconTimers : List Nat
  stableConnectionStatus : String
  /-- deferred results of the `connect()` calls made so far -/
  promises : List PromState

/-- The state set up by the `WebSocketService` constructor. -/
def initialState : WSState :=
  { socks := []
    cur := none
    reconnectAttempts := 0
    isManualDisconnect := false
    pingActive := false
    disconnectionTimer := none
    reconTimers := []
    stableConnectionStatus := "disconnected"
    promises := [] }

/-- Event names with a listener list in the constructor's `this.listeners`
map; `on`/`emitEvent` treat every other name as unknown. -/
def knownEvents : List String :=
  ["open", "close", "error", "message", "healthCheck", "stableStatusChange"]

/-- `API_CONFIG.WEBSOCKET.MESSAGE_TYPES.HEALTH_CHECK`. -/
def HEALTH_CHECK : String := "health_check"

/-- `updateStableStatus(status)`: store and emit only on change. -/
def updateStableStatus (s : WSState) (status : String) : WSState × List Out :=
  if s.stableConnectionStatus ≠ status then
    ({ s with stableConnectionStatus := status },
     [Out.emit "stableStatusChange" (.statusPayload status)])
  else (s, [])

/-- `clearDisconnectionTimer()`. -/
def clearDisconnectionTimer (s : WSState) : WSState :=
  { s with disconnectionTimer := none }

/-- `startDisconnectionTimer()`: clear, then arm for `now + gracePeriod`. -/
def startDisconnectionTimer (cfg : Config) (s : WSState) (now : Nat) : WSState :=
  { clearDisconnectionTimer s with disconnectionTimer := some (now + cfg.gracePeriod) }

/-- `stopHeartbeat()`. -/
def stopHeartbeat (s : WSState) : WSState :=
  { s with pingActive := false }

/-- `startHeartbeat()`: `stopHeartbeat()` then `setInterval(...)`. -/
def startHeartbeat (s : WSState) : WSState :=
  { stopHeartbeat s with pingActive := true }

/-- `readyState` of socket `k`, if that socket exists. -/
def readyAt (s : WSState) (k : Nat) : Option Ready :=
  (s.socks[k]?).map Sock.ready

/-- `this.ws && this.ws.readyState === WebSocket.OPEN`. -/
def isSocketOpen (s : WSState) : Bool :=
  match s.cur with
  | some j => decide (readyAt s j = some Ready.OPEN)
  | none => false

/-- An outbound payload: a string, or an object to be stringified. -/
inductive Payload
  | str (s : String)
  | obj (j : Json)

/-- `typeof message === 'string' ? message : JSON.stringify(message)`. -/
def serializeMessage : Payload → String
  | .str m => m
  | .obj j => Json.stringify j

/-- `send(message)`: returns `false` and performs no transport operation
unless the current socket is open; otherwise serializes and sends.  The
`try`/`catch` of the source absorbs platform exceptions, so the embedded
function is total and returns a Bool to its caller. -/
def send (s : WSState) (message : Payload) : Bool × List Out :=
  if isSocketOpen s then
    (true, [Out.transportSend (serializeMessage message)])
  else
    (false, [])

/-- `ws.close()` on socket `j`: a closed socket stays closed, any other
one starts closing. -/
def closeSockAt (ss : List Sock) (j : Nat) : List Sock :=
  match ss[j]? with
  | some sk =>
      ss.set j { sk with ready := if sk.ready = Ready.CLOSED then Ready.CLOSED else Ready.CLOSING }
  | none => ss

/-- Force the ready state of socket `k`. -/
def setReady (ss : List Sock) (k : Nat) (r : Ready) : List Sock :=
  match ss[k]? with
  | some sk => ss.set k { sk with ready := r }
  | none => ss

/-- `resolve()` of promise `i`: settling is first-come (a settled promise
ignores later settlements). -/
def resolveProm (ps : List PromState) (i : Nat) : List PromState :=
  match ps[i]? with
  | some .pending => ps.set i .resolved
  | _ => ps

/-- `reject()` of promise `i`. -/
def rejectProm (ps : List PromState) (i : Nat) : List PromState :=
  match ps[i]? with
  | some .pending => ps.set i .rejected
  | _ => ps

/-- The promise settled by the handlers of socket `k`. -/
def promIdxOf (s : WSState) (k : Nat) : Nat :=
  match s.socks[k]? with
  | some sk => sk.promiseIdx
  | none => 0

/-- The body of `connect()`: resolve immediately when the feature flag is
off; otherwise close any existing socket, clear the manual-disconnect
mark, and construct a fresh socket whose handlers settle a fresh
promise. -/
def connect (cfg : Config) (s : WSState) : WSState × List Out :=
  if cfg.wsEnabled then
    let closeOuts : List Out :=
      match s.cur with
      | some _ => [Out.closeTransport none]
      | none => []
    let socks1 :=
      match s.cur with
      | some j => closeSockAt s.socks j
      | none => s.socks
    let p := s.promises.length
    let g := socks1.length
    ({ s with
        socks := socks1 ++ [⟨Ready.CONNECTING, p⟩]
        cur := some g
        isManualDisconnect := false
        promises := s.promises ++ [PromState.pending] },
     closeOuts ++ [Out.newSocket g])
  else
    ({ s with promises := s.promises ++ [PromState.resolved] }, [])

/-- `ws.onopen` of socket `k`: reset the attempt counter, cancel the grace
timer, flip the stable status to connected, emit `open`, start the
heartbeat, send the hello message, resolve the call's promise. -/
def onOpen (s : WSState) (k : Nat) : WSState × List Out :=
  let s0 := { s with socks := setReady s.socks k Ready.OPEN }
  let s1 := { s0 with reconnectAttempts := 0 }
  let s2 := clearDisconnectionTimer s1
  let su := updateStableStatus s2 "connected"
  let s4 := startHeartbeat su.1
  let sendRes := send s4 (.str "Frontend connected")
  let s5 := { s4 with promises := resolveProm s4.promises (promIdxOf s4 k) }
  (s5, su.2 ++ [Out.emit "open" .eventObj] ++ sendRes.2)

/-- `ws.onmessage`: try JSON first, emit the generic `message` event, and
re-emit tagged health updates on the dedicated channel; on parse failure
wrap the raw text into an echo message event. -/
def handleMessage : InMsg → List Out
  | .parsable j =>
      Out.emit "message" (.msgPayload (.parsed j)) ::
        (if typeIs j HEALTH_CHECK then
          [Out.emit "healthCheck" (.jsonPayload (jLookup j "data"))]
        else [])
  | .unparsable raw => [Out.emit "message" (.msgPayload (.echo raw))]

/-- `scheduleReconnection()`: bump the counter and arm a timeout after the
fixed `reconnectInterval`. -/
def scheduleReconnection (cfg : Config) (s : WSState) (now : Nat) : WSState × List Out :=
  ({ s with
      reconnectAttempts := s.reconnectAttempts + 1
      reconTimers := s.reconTimers ++ [now + cfg.reconnectInterval] },
   [Out.scheduleReconnect cfg.reconnectInterval])

/-- `ws.onclose` of socket `k`: stop the heartbeat, restart the grace
timer, emit `close`, and schedule a reconnection unless manually
disconnected or out of attempts. -/
def onClose (cfg : Config) (s : WSState) (now : Nat) (k : Nat) : WSState × List Out :=
  let s0 := { s with socks := setReady s.socks k Ready.CLOSED }
  let s1 := stopHeartbeat s0
  let s2 := startDisconnectionTimer cfg s1 now
  if ¬ s2.isManualDisconnect ∧ s2.reconnectAttempts < cfg.maxReconnectAttempts then
    let sr := scheduleReconnection cfg s2 now
    (sr.1, Out.emit "close" .eventObj :: sr.2)
  else
    (s2, [Out.emit "close" .eventObj])

/-- `ws.onerror` of socket `k`: emit `error`; reject the call's promise
only on the first connection attempt. -/
def onError (s : WSState) (k : Nat) : WSState × List Out :=
  let s1 :=
    if s.reconnectAttempts = 0 then
      { s with promises := rejectProm s.promises (promIdxOf s k) }
    else s
  (s1, [Out.emit "error" .eventObj])

/-- The grace-period timeout callback: mark the timer spent, then
`updateStableStatus('disconnected')`. -/
def graceFireStep (s : WSState) : WSState × List Out :=
  updateStableStatus { s with disconnectionTimer := none } "disconnected"

/-- A scheduled reconnection timeout with deadline `d` fires: re-connect
unless manually disconnected or past the attempt bound. -/
def reconFireStep (cfg : Config) (s : WSState) (d : Nat) : WSState × List Out :=
  let s1 := { s with reconTimers := s.reconTimers.erase d }
  if ¬ s1.isManualDisconnect ∧ s1.reconnectAttempts ≤ cfg.maxReconnectAttempts then
    connect cfg s1
  else (s1, [])

/-- A heartbeat interval tick: `send('ping')` guarded on an open socket. -/
def pingFireStep (s : WSState) : WSState × List Out :=
  (s, (send s (.str "ping")).2)

/-- `disconnect()`: mark manual, stop heartbeat, clear the grace timer,
flip stable status to disconnected, close the transport with code 1000
and drop the handle. -/
def disconnect (s : WSState) : WSState × List Out :=
  let s1 := stopHeartbeat { s with isManualDisconnect := true }
  let s2 := clearDisconnectionTimer s1
  let su := updateStableStatus s2 "disconnected"
  match su.1.cur with
  | some j =>
      ({ su.1 with socks := closeSockAt su.1.socks j, cur := none },
       su.2 ++ [Out.closeTransport (some 1000)])
  | none => (su.1, su.2)

/-- One event-loop callback. -/
inductive Ev
  | wsOpen (k : Nat)
  | wsMessage (k : Nat) (m : InMsg)
  | wsClose (k : Nat)
  | wsError (k : Nat)
  | graceFire
  | reconFire (deadline : Nat)
  | pingFire
  | callConnect
  | callDisconnect

/-- Run one callback at time `t`. -/
def step (cfg : Config) (s : WSState) (t : Nat) : Ev → WSState × List Out
  | .wsOpen k => onOpen s k
  | .wsMessage _ m => (s, handleMessage m)
  | .wsClose k => onClose cfg s t k
  | .wsError k => onError s k
  | .graceFire => graceFireStep s
  | .reconFire d => reconFireStep cfg s d
  | .pingFire => pingFireStep s
  | .callConnect => connect cfg s
  | .callDisconnect => disconnect s

/-- Event-loop punctuality: no callback runs later than a pending timeout
deadline (the timeout would have fired first), except the firing of that
very timeout. -/
def punctual (s : WSState) (t : Nat) (e : Ev) : Bool :=
  (match s.disconnectionTimer, e with
   | some _, .graceFire => true
   | some d, _ => decide (t ≤ d)
   | none, _ => true)
  && s.reconTimers.all (fun d =>
      match e with
      | .reconFire fired => if fired = d then true else decide (t ≤ d)
      | _ => decide (t ≤ d))

/-- Which callbacks the environment may deliver in a given state. -/
def enabled (s : WSState) (t : Nat) : Ev → Bool
  | .wsOpen k =>
      decide (s.cur = some k) && decide (readyAt s k = some Ready.CONNECTING)
  | .wsMessage k _ =>
      decide (readyAt s k = some Ready.OPEN) || decide (readyAt s k = some Ready.CLOSING)
  | .wsClose k =>
      match readyAt s k with
      | some r => decide (r ≠ Ready.CLOSED)
      | none => false
  | .wsError k =>
      match readyAt s k with
      | some r => decide (r ≠ Ready.CLOSED)
      | none => false
  | .graceFire =>
      match s.disconnectionTimer with
      | some d => decide (d ≤ t)
      | none => false
  | .reconFire d => s.reconTimers.contains d && decide (d ≤ t)
  | .pingFire => s.pingActive
  | .callConnect => true
  | .callDisconnect => true

/-- Admissibility of a callback at time `t` after a last event at `last`. -/
def okB (s : WSState) (last t : Nat) (e : Ev) : Bool :=
  decide (last ≤ t) && punctual s t e && enabled s t e

/-- A trace of timed callbacks is valid when each is admissible in the
state reached by its predecessors. -/
def validFrom (cfg : Config) (s : WSState) (last : Nat) : List (Nat × Ev) → Bool
  | [] => true
  | (t, e) :: rest =>
      okB s last t e && validFrom cfg (step cfg s t e).1 t rest

/-- Run a trace, collecting the outputs tagged with their event's time. -/
def run (cfg : Config) (s : WSState) : List (Nat × Ev) → WSState × List (Nat × Out)
  | [] => (s, [])
  | (t, e) :: rest =>
      let p := step cfg s t e
      let q := run cfg p.1 rest
      (q.1, p.2.map (fun o => (t, o)) ++ q.2)

/-! ## Trace observations -/

/-- The status payload of an output, when it is a `stableStatusChange`
emission. -/
def stableOut? : Out → Option String
  | .emit name (.statusPayload p) => if name = "stableStatusChange" then some p else none
  | _ => none

/-- The `stableStatusChange` payloads of a list of outputs. -/
def stableOuts (l : List Out) : List String := l.filterMap stableOut?

/-- The timed `stableStatusChange` emissions of a run. -/
def stableEmits (l : List (Nat × Out)) : List (Nat × String) :=
  l.filterMap (fun p => (stableOut? p.2).map (fun q => (p.1, q)))

/-- Whether an output creates a transport socket. -/
def isNewSocketOut : Out → Bool
  | .newSocket _ => true
  | _ => false

/-- Whether an output sends on the transport. -/
def isSendOut : Out → Bool
  | .transportSend _ => true
  | _ => false

/-- Number of sockets created during a run (= number of connection
attempts actually started). -/
def newSocketCount (l : List (Nat × Out)) : Nat :=
  l.countP (fun p => isNewSocketOut p.2)

/-- Whether a run ever sends on the transport. -/
def hasSend (l : List (Nat × Out)) : Bool :=
  l.any (fun p => isSendOut p.2)

/-- Event classifiers for trace-shape hypotheses. -/
def evIsOpen : Ev → Bool
  | .wsOpen _ => true
  | _ => false

/-- Whether an event is the grace-period timeout firing. -/
def evIsGrace : Ev → Bool
  | .graceFire => true
  | _ => false

/-- Whether an event is an explicit `connect()` call. -/
def evIsConnectCall : Ev → Bool
  | .callConnect => true
  | _ => false

/-- Whether an event is an explicit `disconnect()` call. -/
def evIsDisconnectCall : Ev → Bool
  | .callDisconnect => true
  | _ => false

/-- Whether a trace contains an event of the given kind. -/
def hasEv (f : Ev → Bool) (tr : List (Nat × Ev)) : Bool :=
  tr.any (fun p => f p.2)

theorem stableEmits_append (l₁ l₂ : List (Nat × Out)) :
    stableEmits (l₁ ++ l₂) = stableEmits l₁ ++ stableEmits l₂ := by
  simp [stableEmits]

theorem stableEmits_map_time (t : Nat) (l : List Out) :
    stableEmits (l.map (fun o => (t, o))) = (stableOuts l).map (fun q => (t, q)) := by
  simp only [stableEmits, stableOuts, List.filterMap_map, List.map_filterMap]
  rfl

/-! ## A generic invariant lemma over valid traces -/

/-- Invariant preservation along a valid trace whose events all satisfy
`allowed`: if each admissible allowed step preserves `R` (a relation
between the current state and the outputs produced so far), then running
the whole trace preserves it. -/
theorem run_inv (cfg : Config) (allowed : Ev → Bool)
    (R : WSState → List (Nat × Out) → Prop)
    (hstep : ∀ s acc last t e, allowed e = true → okB s last t e = true → R s acc →
      R (step cfg s t e).1 (acc ++ (step cfg s t e).2.map (fun o => (t, o)))) :
    ∀ (tr : List (Nat × Ev)) (s : WSState) (last : Nat) (acc : List (Nat × Out)),
      validFrom cfg s last tr = true →
      (∀ p ∈ tr, allowed p.2 = true) →
      R s acc →
      R (run cfg s tr).1 (acc ++ (run cfg s tr).2)
  | [], s, _, acc, _, _, hR => by simpa [run] using hR
  | (t, e) :: rest, s, last, acc, hv, hall, hR => by
      simp only [validFrom, Bool.and_eq_true] at hv
      have ha : allowed e = true := hall (t, e) (List.mem_cons_self _ _)
      have h1 := hstep s acc last t e ha hv.1 hR
      have h2 := run_inv cfg allowed R hstep rest (step cfg s t e).1 t
        (acc ++ (step cfg s t e).2.map (fun o => (t, o))) hv.2
        (fun p hp => hall p (List.mem_cons_of_mem _ hp)) h1
      simpa [run, List.append_assoc] using h2

/-! ## C1: a close reversed by an open within the grace period is invisible -/

/-- Any event other than a grace-period expiry or a manual disconnect
keeps the stable status at `connected` and emits no `stableStatusChange`. -/
theorem c1_step (cfg : Config) (s : WSState) (t : Nat) (e : Ev)
    (hg : evIsGrace e = false) (hd : evIsDisconnectCall e = false)
    (hst : s.stableConnectionStatus = "connected") :
    (step cfg s t e).1.stableConnectionStatus = "connected" ∧
    stableOuts (step cfg s t e).2 = [] := by
  cases e with
  | wsOpen k =>
      simp only [step, onOpen, updateStableStatus, startHeartbeat, stopHeartbeat,
        clearDisconnectionTimer, hst, ne_eq, not_true_eq_false, if_false, ite_false]
      constructor
      · simp [hst]
      · simp only [send]
        split <;> simp [stableOuts, stableOut?]
  | wsMessage k m =>
      refine ⟨hst, ?_⟩
      cases m with
      | parsable j =>
          simp only [step, handleMessage]
          split <;> simp [stableOuts, stableOut?]
      | unparsable raw =>
          simp [step, handleMessage, stableOuts, stableOut?]
  | wsClose k =>
      simp only [step, onClose, startDisconnectionTimer, clearDisconnectionTimer,
        stopHeartbeat, scheduleReconnection]
      split <;> simp [hst, stableOuts, stableOut?]
  | wsError k =>
      simp only [step, onError]
      split <;> simp [hst, stableOuts, stableOut?]
  | graceFire => simp [evIsGrace] at hg
  | reconFire d =>
      simp only [step, reconFireStep, connect]
      split
      · split
        · cases s.cur <;> simp [hst, stableOuts, stableOut?]
        · simp [hst, stableOuts, stableOut?]
      · simp [hst, stableOuts, stableOut?]
  | pingFire =>
      refine ⟨hst, ?_⟩
      simp only [step, pingFireStep, send]
      split <;> simp [stableOuts, stableOut?]
  | callConnect =>
      simp only [step, connect]
      split
      · cases s.cur <;> simp [hst, stableOuts, stableOut?]
      · simp [hst, stableOuts, stableOut?]
  | callDisconnect => simp [evIsDisconnectCall] at hd

/-- C1: for every transport episode in which a `close` is followed by an
`open` before the grace-period timer elapses (formally: any valid
continuation of the close that contains no grace-period expiry and no
manual disconnect, which in particular covers every reopen within the
grace period), no `stableStatusChange` event fires; moreover the close
(re)arms the grace-period timer for `gracePeriod` milliseconds and an
open cancels it. -/
theorem c1_close_open_within_grace_no_flicker (cfg : Config) (s : WSState)
    (last t₀ k : Nat) (tr : List (Nat × Ev))
    (hst : s.stableConnectionStatus = "connected")
    (hv : validFrom cfg s last ((t₀, Ev.wsClose k) :: tr) = true)
    (hg : hasEv evIsGrace tr = false)
    (hd : hasEv evIsDisconnectCall tr = false) :
    stableEmits (run cfg s ((t₀, Ev.wsClose k) :: tr)).2 = [] ∧
    (step cfg s t₀ (Ev.wsClose k)).1.disconnectionTimer = some (t₀ + cfg.gracePeriod) ∧
    (step cfg s t₀ (Ev.wsOpen k)).1.disconnectionTimer = none := by
  refine ⟨?_, ?_, ?_⟩
  · have hall : ∀ p ∈ (t₀, Ev.wsClose k) :: tr,
        (!evIsGrace p.2 && !evIsDisconnectCall p.2) = true := by
      intro p hp
      rcases List.mem_cons.mp hp with h | h
      · subst h; rfl
      · simp only [hasEv, List.any_eq_false] at hg hd
        simp [hg p h, hd p h]
    have hinv := run_inv cfg (fun e => !evIsGrace e && !evIsDisconnectCall e)
      (fun s acc => s.stableConnectionStatus = "connected" ∧ stableEmits acc = [])
      (by
        intro s acc last t e ha hok hR
        simp only [Bool.and_eq_true, Bool.not_eq_true'] at ha
        have h := c1_step cfg s t e ha.1 ha.2 hR.1
        refine ⟨h.1, ?_⟩
        simp [stableEmits_append, stableEmits_map_time, hR.2, h.2])
      ((t₀, Ev.wsClose k) :: tr) s last [] hv hall ⟨hst, rfl⟩
    simpa using hinv.2
  · simp only [step, onClose, startDisconnectionTimer, clearDisconnectionTimer,
      stopHeartbeat, scheduleReconnection]
    split <;> rfl
  · simp only [step, onOpen, updateStableStatus, startHeartbeat, stopHeartbeat,
      clearDisconnectionTimer]
    split <;> rfl

/-- A fixed configuration for concrete runs. -/
def cfg0 : Config :=
  { maxReconnectAttempts := 5
    reconnectInterval := 3000
    pingIntervalTime := 30000
    gracePeriod := 10000
    wsEnabled := true }

/-- A connected service: one open socket, heartbeat running. -/
def connState : WSState :=
  { socks := [⟨Ready.OPEN, 0⟩]
    cur := some 0
    reconnectAttempts := 0
    isManualDisconnect := false
    pingActive := true
    disconnectionTimer := none
    reconTimers := []
    stableConnectionStatus := "connected"
    promises := [PromState.resolved] }

/-- A concrete blip: close at t=0, scheduled reconnect fires at t=3000,
the new socket opens at t=3100, all inside the 10000ms grace period. -/
def c1trace : List (Nat × Ev) :=
  [(0, Ev.wsClose 0), (3000, Ev.reconFire 3000), (3100, Ev.wsOpen 1)]

theorem c1_witness :
    stableEmits (run cfg0 connState c1trace).2 = [] ∧
    (step cfg0 connState 0 (Ev.wsClose 0)).1.disconnectionTimer = some (0 + cfg0.gracePeriod) ∧
    (step cfg0 connState 0 (Ev.wsOpen 0)).1.disconnectionTimer = none :=
  c1_close_open_within_grace_no_flicker cfg0 connState 0 0 0
    [(3000, Ev.reconFire 3000), (3100, Ev.wsOpen 1)]
    rfl (by decide) (by decide) (by decide)

/-! ## C6: `send` on a non-open transport -/

/-- C6: `send` on an absent or non-open transport returns `false` and
performs no transport operation (the embedded `send` is total, so nothing
is thrown to the caller); on an open transport it sends exactly one
frame, with string payloads passed through and object payloads
JSON-serialized first. -/
theorem c6_send_guard (s : WSState) (p : Payload) (m : String) (j : Json) :
    (isSocketOpen s = false → send s p = (false, [])) ∧
    (isSocketOpen s = true → send s p = (true, [Out.transportSend (serializeMessage p)])) ∧
    serializeMessage (Payload.str m) = m ∧
    serializeMessage (Payload.obj j) = Json.stringify j := by
  refine ⟨fun h => ?_, fun h => ?_, rfl, rfl⟩ <;> simp [send, h]

theorem c6_witness :
    send connState (Payload.str "ping") = (true, [Out.transportSend "ping"]) ∧
    send initialState (Payload.str "ping") = (false, []) :=
  ⟨(c6_send_guard connState (Payload.str "ping") "" (Json.num 0)).2.1 rfl,
   (c6_send_guard initialState (Payload.str "ping") "" (Json.num 0)).1 rfl⟩

/-! ## C7: inbound message classification -/

/-- Whether the output list contains an `emitEvent` call for the given
event name. -/
def hasEmitName (wanted : String) : List Out → Bool
  | [] => false
  | Out.emit name _ :: rest => if name = wanted then true else hasEmitName wanted rest
  | _ :: rest => hasEmitName wanted rest

/-- A concrete health snapshot payload. -/
def healthData : Json :=
  Json.obj [("service_id", Json.str "api"), ("response_time", Json.num 42)]

/-- The concrete inbound health-check message of the scenario. -/
def healthMsgJ : Json :=
  Json.obj [("type", Json.str "health_check"), ("data", healthData)]

/-- C7 counterexample: on the scenario's health-check message the code
emits the generic `message` event and a dedicated health event named
`healthCheck` — no event named `healthUpdate` is emitted, and
`healthUpdate` is not even a registered listener channel (so the claim's
dedicated event, under its spec name `healthUpdate`, never fires). -/
theorem c7_counterexample :
    handleMessage (InMsg.parsable healthMsgJ) =
      [Out.emit "message" (EmitData.msgPayload (MsgPayload.parsed healthMsgJ)),
       Out.emit "healthCheck" (EmitData.jsonPayload (some healthData))] ∧
    hasEmitName "healthUpdate" (handleMessage (InMsg.parsable healthMsgJ)) = false ∧
    knownEvents.contains "healthUpdate" = false ∧
    knownEvents.contains "healthCheck" = true := by
  exact ⟨rfl, by decide, by decide, by decide⟩

/-- C7 (amended): inbound text that parses as JSON with `type` equal to
`health_check` emits both the generic `message` event carrying the parsed
object and the dedicated health event — named `healthCheck` in the code,
not `healthUpdate` as in the spec — whose payload is the object's `data`
field; parsed messages with any other tag emit only the generic event;
text that fails JSON parsing emits only a generic `message` event
wrapping the raw text, and never the health event. -/
theorem c7_amended_message_handling (j : Json) (raw : String) :
    (typeIs j HEALTH_CHECK = true →
      handleMessage (InMsg.parsable j) =
        [Out.emit "message" (EmitData.msgPayload (MsgPayload.parsed j)),
         Out.emit "healthCheck" (EmitData.jsonPayload (jLookup j "data"))]) ∧
    (typeIs j HEALTH_CHECK = false →
      handleMessage (InMsg.parsable j) =
        [Out.emit "message" (EmitData.msgPayload (MsgPayload.parsed j))]) ∧
    handleMessage (InMsg.unparsable raw) =
      [Out.emit "message" (EmitData.msgPayload (MsgPayload.echo raw))] ∧
    hasEmitName "healthCheck" (handleMessage (InMsg.unparsable raw)) = false := by
  refine ⟨fun h => ?_, fun h => ?_, rfl, rfl⟩ <;> simp [handleMessage, h]

theorem c7_witness :
    handleMessage (InMsg.parsable healthMsgJ) =
      [Out.emit "message" (EmitData.msgPayload (MsgPayload.parsed healthMsgJ)),
       Out.emit "healthCheck" (EmitData.jsonPayload (jLookup healthMsgJ "data"))] ∧
    handleMessage (InMsg.unparsable "pong") =
      [Out.emit "message" (EmitData.msgPayload (MsgPayload.echo "pong"))] :=
  ⟨(c7_amended_message_handling healthMsgJ "pong").1 rfl,
   (c7_amended_message_handling healthMsgJ "pong").2.2.1⟩

/-! ## C8: the streamed log buffer cap (`LogsViewer.handleLogUpdate`) -/

/-- One streamed log entry, as consumed by `LogsViewer`. -/
structure LogEntry where
  service_id : String
  timestamp : Nat
  level : String
  message : String
deriving DecidableEq

/-- `handleLogUpdate(logData)` of `LogsViewer.jsx`: append entries of the
viewed service and keep only the last 1000 (`slice(-1000)`). -/
def handleLogUpdate (serviceId : Option String) (logData : LogEntry)
    (prevLogs : List LogEntry) : List LogEntry :=
  if some logData.service_id = serviceId then
    if (prevLogs ++ [logData]).length > 1000 then
      (prevLogs ++ [logData]).drop ((prevLogs ++ [logData]).length - 1000)
    else prevLogs ++ [logData]
  else prevLogs

/-- A full buffer of 1000 entries in arrival order. -/
def logsFull : List LogEntry :=
  (List.range 1000).map (fun i => ⟨"api", i, "INFO", "ok"⟩)

/-- The 1001st streamed entry. -/
def newLog : LogEntry := ⟨"api", 5000, "INFO", "fresh"⟩

/-- C8 counterexample: a buffer holding exactly 1000 entries is *not*
"appended to unchanged" — the append triggers eviction, so the result
differs from the plain append the claim asserts for buffers at 1000. -/
theorem c8_counterexample :
    ¬ handleLogUpdate (some "api") newLog logsFull = logsFull ++ [newLog] := by
  intro h
  have h1 : (handleLogUpdate (some "api") newLog logsFull).length = 1000 := by
    simp [handleLogUpdate, logsFull, newLog]
  have h2 : (logsFull ++ [newLog]).length = 1001 := by
    simp [logsFull]
  rw [h] at h1
  omega

/-- C8 (amended): the buffer is capped at 1000 entries.  Appending a
1001st entry to a buffer of exactly 1000 evicts the oldest entry and
keeps the newest 1000 in arrival order; buffers strictly below 1000
entries are appended to unchanged. -/
theorem c8_amended_log_buffer_cap (sid : String) (e : LogEntry) (logs : List LogEntry)
    (hid : e.service_id = sid) :
    (logs.length = 1000 →
      handleLogUpdate (some sid) e logs = logs.drop 1 ++ [e] ∧
      (handleLogUpdate (some sid) e logs).length = 1000) ∧
    (logs.length < 1000 →
      handleLogUpdate (some sid) e logs = logs ++ [e]) := by
  constructor
  · intro hlen
    have hlen1 : (logs ++ [e]).length = 1001 := by simp [hlen]
    have hmain : handleLogUpdate (some sid) e logs = logs.drop 1 ++ [e] := by
      simp only [handleLogUpdate, hid]
      rw [if_pos trivial, if_pos (by simp [hlen]), List.drop_append_eq_append_drop]
      simp [hlen]
    refine ⟨hmain, ?_⟩
    rw [hmain]
    simp [hlen]
  · intro hlen
    simp only [handleLogUpdate, hid]
    rw [if_pos trivial, if_neg (by simp; omega)]

theorem c8_witness :
    handleLogUpdate (some "api") newLog logsFull = logsFull.drop 1 ++ [newLog] ∧
    handleLogUpdate (some "api") newLog [] = [newLog] :=
  ⟨((c8_amended_log_buffer_cap "api" newLog logsFull rfl).1 (by simp [logsFull])).1,
   (c8_amended_log_buffer_cap "api" newLog [] rfl).2 (by simp)⟩

/-! ## C9: exception isolation in `emitEvent` -/

/-- Outcome of invoking one subscriber callback: normal return, or a
thrown exception (caught by `emitEvent`'s per-callback `try`/`catch`). -/
inductive CbRes
  | ok
  | exn (msg : String)
deriving DecidableEq

/-- A subscriber callback, abstracted to its outcome on each payload. -/
def Cb : Type := EmitData → CbRes

/-- The `forEach` body of `emitEvent`: invoke every callback in
registration order with the same payload; a thrown exception is caught
(logged) and iteration continues. -/
def runCallbacks : List Cb → EmitData → List CbRes
  | [], _ => []
  | cb :: rest, data =>
      match cb data with
      | .ok => CbRes.ok :: runCallbacks rest data
      | .exn m => CbRes.exn m :: runCallbacks rest data

/-- The service's listener table, and `emitEvent`'s lookup: unknown event
names have no listener list and emit to nobody.  `emitEvent` neither
reads nor writes any other service state (its embedding does not take a
`WSState` at all), so a listener's failure cannot change the client. -/
def emitEvent (listeners : List (String × List Cb)) (event : String)
    (data : EmitData) : List CbRes :=
  match listeners.find? (fun q => q.1 = event) with
  | some q => runCallbacks q.2 data
  | none => []

theorem runCallbacks_eq_map (cbs : List Cb) (data : EmitData) :
    runCallbacks cbs data = cbs.map (fun cb => cb data) := by
  induction cbs with
  | nil => rfl
  | cons cb rest ih =>
      cases h : cb data <;> simp [runCallbacks, h, ih]

/-- C9: event emission is exception-isolated.  Even when the `i`-th
registered callback throws, every callback (in particular any later
`j`-th one) is still invoked with the same payload, every outcome is
recorded in order, and the thrown exception is absorbed rather than
propagated to the emitter's caller. -/
theorem c9_emitEvent_exception_isolated (cbs : List Cb) (data : EmitData)
    (i j : Nat) (m : String)
    (hthrew : (cbs[i]?).map (fun cb => cb data) = some (CbRes.exn m)) :
    (runCallbacks cbs data).length = cbs.length ∧
    (runCallbacks cbs data)[j]? = (cbs[j]?).map (fun cb => cb data) ∧
    (runCallbacks cbs data)[i]? = some (CbRes.exn m) := by
  rw [runCallbacks_eq_map]
  refine ⟨by simp, by simp [List.getElem?_map], ?_⟩
  rw [List.getElem?_map]
  exact hthrew

/-- Two concrete callbacks: the first always throws, the second returns. -/
def throwingCb : Cb := fun _ => CbRes.exn "boom"

/-- A callback that returns normally. -/
def okCb : Cb := fun _ => CbRes.ok

theorem c9_witness :
    (runCallbacks [throwingCb, okCb] EmitData.eventObj).length = 2 ∧
    (runCallbacks [throwingCb, okCb] EmitData.eventObj)[1]? =
      ([throwingCb, okCb][1]?).map (fun cb => cb EmitData.eventObj) ∧
    (runCallbacks [throwingCb, okCb] EmitData.eventObj)[0]? = some (CbRes.exn "boom") :=
  c9_emitEvent_exception_isolated [throwingCb, okCb] EmitData.eventObj 0 1 "boom" rfl

/-! ## C10: the stable status is a two-valued, change-only signal -/

/-- The two values the stable status ranges over. -/
def statusSet : List String := ["connected", "disconnected"]

/-- Closed form of `updateStableStatus`. -/
theorem updateStableStatus_eq (s : WSState) (status : String) :
    updateStableStatus s status =
      if s.stableConnectionStatus = status then (s, [])
      else ({ s with stableConnectionStatus := status },
            [Out.emit "stableStatusChange" (.statusPayload status)]) := by
  by_cases h : s.stableConnectionStatus = status <;> simp [updateStableStatus, h]

theorem stableOuts_nil : stableOuts [] = [] := rfl

theorem stableOuts_append (l₁ l₂ : List Out) :
    stableOuts (l₁ ++ l₂) = stableOuts l₁ ++ stableOuts l₂ := by
  simp [stableOuts]

theorem stableOuts_send (s : WSState) (p : Payload) : stableOuts (send s p).2 = [] := by
  simp only [send]
  split <;> rfl

theorem stableOuts_cons_eventObj (name : String) (l : List Out) :
    stableOuts (Out.emit name EmitData.eventObj :: l) = stableOuts l := rfl

theorem stableOuts_cons_statusChange (x : String) (l : List Out) :
    stableOuts (Out.emit "stableStatusChange" (EmitData.statusPayload x) :: l) =
      x :: stableOuts l := by
  simp [stableOuts, List.filterMap_cons, stableOut?]

theorem stableOuts_cons_closeTransport (code : Option Nat) (l : List Out) :
    stableOuts (Out.closeTransport code :: l) = stableOuts l := rfl

theorem stableOuts_cons_transportSend (m : String) (l : List Out) :
    stableOuts (Out.transportSend m :: l) = stableOuts l := rfl

theorem stableOuts_cons_newSocket (g : Nat) (l : List Out) :
    stableOuts (Out.newSocket g :: l) = stableOuts l := rfl

theorem stableOuts_cons_scheduleReconnect (d : Nat) (l : List Out) :
    stableOuts (Out.scheduleReconnect d :: l) = stableOuts l := rfl

/-- One step changes the stable status only through `updateStableStatus`:
either nothing is emitted and the stored value is unchanged, or exactly
one `stableStatusChange` is emitted, its payload is one of the two status
strings, differs from the stored value, and becomes the new stored
value. -/
theorem c10_step (cfg : Config) (s : WSState) (t : Nat) (e : Ev)
    (hst : s.stableConnectionStatus ∈ statusSet) :
    (step cfg s t e).1.stableConnectionStatus ∈ statusSet ∧
    ((stableOuts (step cfg s t e).2 = [] ∧
      (step cfg s t e).1.stableConnectionStatus = s.stableConnectionStatus) ∨
     (∃ x, x ∈ statusSet ∧ stableOuts (step cfg s t e).2 = [x] ∧
        x ≠ s.stableConnectionStatus ∧
        (step cfg s t e).1.stableConnectionStatus = x)) := by
  cases e with
  | wsOpen k =>
      by_cases h : s.stableConnectionStatus = "connected"
      · refine ⟨?_, Or.inl ⟨?_, ?_⟩⟩ <;>
          simp [step, onOpen, updateStableStatus, startHeartbeat, stopHeartbeat,
            clearDisconnectionTimer, h, stableOuts_nil, stableOuts_append,
            stableOuts_send, stableOuts_cons_eventObj, stableOuts_cons_statusChange,
            statusSet]
      · refine ⟨?_, Or.inr ⟨"connected", ?_, ?_, fun heq => h heq.symm, ?_⟩⟩ <;>
          simp [step, onOpen, updateStableStatus, startHeartbeat, stopHeartbeat,
            clearDisconnectionTimer, h, stableOuts_nil, stableOuts_append,
            stableOuts_send, stableOuts_cons_eventObj, stableOuts_cons_statusChange,
            statusSet]
  | wsMessage k m =>
      refine ⟨hst, Or.inl ⟨?_, rfl⟩⟩
      cases m with
      | parsable j =>
          simp only [step, handleMessage]
          split <;> simp [stableOuts, stableOut?]
      | unparsable raw => simp [step, handleMessage, stableOuts, stableOut?]
  | wsClose k =>
      simp only [step, onClose, startDisconnectionTimer, clearDisconnectionTimer,
        stopHeartbeat, scheduleReconnection]
      split <;> exact ⟨hst, Or.inl ⟨by simp [stableOuts, stableOut?], rfl⟩⟩
  | wsError k =>
      simp only [step, onError]
      split <;> exact ⟨hst, Or.inl ⟨by simp [stableOuts, stableOut?], rfl⟩⟩
  | graceFire =>
      by_cases h : s.stableConnectionStatus = "disconnected"
      · refine ⟨?_, Or.inl ⟨?_, ?_⟩⟩ <;>
          simp [step, graceFireStep, updateStableStatus, h, stableOuts_nil,
            stableOuts_cons_statusChange, statusSet]
      · refine ⟨?_, Or.inr ⟨"disconnected", ?_, ?_, fun heq => h heq.symm, ?_⟩⟩ <;>
          simp [step, graceFireStep, updateStableStatus, h, stableOuts_nil,
            stableOuts_cons_statusChange, statusSet]
  | reconFire d =>
      simp only [step, reconFireStep, connect]
      split
      · split
        · cases s.cur <;> exact ⟨hst, Or.inl ⟨by simp [stableOuts, stableOut?], rfl⟩⟩
        · exact ⟨hst, Or.inl ⟨rfl, rfl⟩⟩
      · exact ⟨hst, Or.inl ⟨rfl, rfl⟩⟩
  | pingFire =>
      refine ⟨hst, Or.inl ⟨?_, rfl⟩⟩
      simp only [step, pingFireStep, send]
      split <;> simp [stableOuts, stableOut?]
  | callConnect =>
      simp only [step, connect]
      split
      · cases s.cur <;> exact ⟨hst, Or.inl ⟨by simp [stableOuts, stableOut?], rfl⟩⟩
      · exact ⟨hst, Or.inl ⟨rfl, rfl⟩⟩
  | callDisconnect =>
      by_cases h : s.stableConnectionStatus = "disconnected"
      · refine ⟨?_, Or.inl ⟨?_, ?_⟩⟩ <;> cases hc : s.cur <;>
          simp [step, disconnect, updateStableStatus, clearDisconnectionTimer,
            stopHeartbeat, h, hc, stableOuts_nil, stableOuts_append,
            stableOuts_cons_statusChange, stableOuts_cons_closeTransport, statusSet]
      · refine ⟨?_, Or.inr ⟨"disconnected", ?_, ?_, fun heq => h heq.symm, ?_⟩⟩ <;>
          cases hc : s.cur <;>
          simp [step, disconnect, updateStableStatus, clearDisconnectionTimer,
            stopHeartbeat, h, hc, stableOuts_nil, stableOuts_append,
            stableOuts_cons_statusChange, stableOuts_cons_closeTransport, statusSet]

/-- `chainNe prev l`: head differs from `prev` and consecutive elements
of `l` pairwise differ. -/
def chainNe (prev : String) : List String → Bool
  | [] => true
  | a :: rest => decide (a ≠ prev) && chainNe a rest

/-- Consecutive elements pairwise differ. -/
def adjacentDistinct : List String → Bool
  | [] => true
  | a :: rest => chainNe a rest

/-- Last element, with a default for the empty list. -/
def lastOr (d : String) : List String → String
  | [] => d
  | a :: rest => lastOr a rest

theorem lastOr_snoc (x : String) : ∀ (l : List String) (d : String), lastOr d (l ++ [x]) = x
  | [], _ => rfl
  | a :: rest, d => by simpa [lastOr] using lastOr_snoc x rest a

theorem chainNe_snoc (x : String) : ∀ (l : List String) (prev : String),
    chainNe prev l = true → x ≠ lastOr prev l → chainNe prev (l ++ [x]) = true
  | [], prev, _, hx => by simp [chainNe, lastOr] at hx ⊢; exact hx
  | a :: rest, prev, h, hx => by
      simp only [chainNe, Bool.and_eq_true] at h
      simp only [List.cons_append, chainNe, Bool.and_eq_true]
      exact ⟨h.1, chainNe_snoc x rest a h.2 (by simpa [lastOr] using hx)⟩

theorem adjacentDistinct_snoc (x : String) (l : List String)
    (h : adjacentDistinct l = true) (hx : x ≠ lastOr "" l ∨ l = []) :
    adjacentDistinct (l ++ [x]) = true := by
  cases l with
  | nil => rfl
  | cons a rest =>
      rcases hx with hx | hx
      · exact chainNe_snoc x rest a h (by simpa [lastOr] using hx)
      · simp at hx

/-- C10: the stable status is a two-valued signal.  It is `disconnected`
at construction; every valid trace of operations keeps the stored value
in the set `statusSet`; a `stableStatusChange` is emitted only when the
stored value actually changes (in particular storing the current value
emits nothing); and consequently two consecutively emitted status
payloads are never equal. -/
theorem c10_stable_status_invariant (cfg : Config) (s : WSState) (last : Nat)
    (status : String) (tr : List (Nat × Ev))
    (hst : s.stableConnectionStatus ∈ statusSet)
    (hv : validFrom cfg s last tr = true) :
    initialState.stableConnectionStatus = "disconnected" ∧
    (s.stableConnectionStatus = status → updateStableStatus s status = (s, [])) ∧
    (run cfg s tr).1.stableConnectionStatus ∈ statusSet ∧
    adjacentDistinct ((stableEmits (run cfg s tr).2).map Prod.snd) = true := by
  refine ⟨rfl, fun h => by simp [updateStableStatus, h], ?_⟩
  have hinv := run_inv cfg (fun _ => true)
    (fun s acc =>
      s.stableConnectionStatus ∈ statusSet ∧
      adjacentDistinct ((stableEmits acc).map Prod.snd) = true ∧
      ((stableEmits acc).map Prod.snd = [] ∨
        lastOr "" ((stableEmits acc).map Prod.snd) = s.stableConnectionStatus))
    (by
      intro s acc last t e _ hok hR
      obtain ⟨hmem, hadj, hlast⟩ := hR
      have hstep := c10_step cfg s t e hmem
      have hE : (stableEmits (acc ++ (step cfg s t e).2.map (fun o => (t, o)))).map Prod.snd =
          (stableEmits acc).map Prod.snd ++ stableOuts (step cfg s t e).2 := by
        simp [stableEmits_append, stableEmits_map_time]
      rcases hstep.2 with ⟨hout, hsame⟩ | ⟨x, hxmem, hout, hxne, hxset⟩
      · refine ⟨hstep.1, ?_, ?_⟩
        · simpa [hE, hout] using hadj
        · rw [hE, hout, List.append_nil, hsame]
          exact hlast
      · refine ⟨hstep.1, ?_, ?_⟩
        · rw [hE, hout]
          refine adjacentDistinct_snoc x _ hadj ?_
          rcases hlast with hl | hl
          · exact Or.inr hl
          · exact Or.inl (by rw [hl]; exact hxne)
        · rw [hE, hout, hxset]
          exact Or.inr (lastOr_snoc x _ ""))
    tr s last [] hv (fun _ _ => rfl) ⟨hst, rfl, Or.inl rfl⟩
  exact ⟨hinv.1, by simpa using hinv.2.1⟩

/-- A concrete session: construct, connect, the socket opens, then a
manual disconnect. -/
def c10trace : List (Nat × Ev) :=
  [(0, Ev.callConnect), (5, Ev.wsOpen 0), (10, Ev.callDisconnect)]

theorem c10_witness :
    initialState.stableConnectionStatus = "disconnected" ∧
    (initialState.stableConnectionStatus = "disconnected" →
      updateStableStatus initialState "disconnected" = (initialState, [])) ∧
    (run cfg0 initialState c10trace).1.stableConnectionStatus ∈ statusSet ∧
    adjacentDistinct ((stableEmits (run cfg0 initialState c10trace).2).map Prod.snd) = true :=
  c10_stable_status_invariant cfg0 initialState 0 "disconnected" c10trace
    (by decide) (by decide)

/-! ## C5: `disconnect()` suppresses heartbeats and reconnection -/

/-- The shape `disconnect()` leaves the client in: manually terminated,
no heartbeat, no transport handle. -/
def quiesced (s : WSState) : Prop :=
  s.isManualDisconnect = true ∧ s.cur = none ∧ s.pingActive = false

theorem disconnect_spec (s : WSState) :
    quiesced (disconnect s).1 ∧
    (disconnect s).1.disconnectionTimer = none ∧
    (disconnect s).1.stableConnectionStatus = "disconnected" ∧
    (s.cur = none ∨ Out.closeTransport (some 1000) ∈ (disconnect s).2) := by
  by_cases h : s.stableConnectionStatus = "disconnected" <;> cases hc : s.cur <;>
    simp [disconnect, updateStableStatus, clearDisconnectionTimer, stopHeartbeat,
      h, hc, quiesced]

/-- In a quiesced state, any admissible event other than an explicit
`connect()` keeps the client quiesced, sends nothing on the transport and
starts no connection attempt. -/
theorem c5_step (cfg : Config) (s : WSState) (last t : Nat) (e : Ev)
    (hok : okB s last t e = true) (hnc : evIsConnectCall e = false)
    (hq : quiesced s) :
    quiesced (step cfg s t e).1 ∧
    (step cfg s t e).2.all (fun o => !isSendOut o && !isNewSocketOut o) = true := by
  obtain ⟨hman, hcur, hping⟩ := hq
  cases e with
  | wsOpen k =>
      exfalso
      simp only [okB, enabled, Bool.and_eq_true, decide_eq_true_eq] at hok
      rw [hcur] at hok
      exact Option.noConfusion hok.2.1
  | wsMessage k m =>
      refine ⟨⟨hman, hcur, hping⟩, ?_⟩
      cases m with
      | parsable j =>
          simp only [step, handleMessage]
          split <;> simp [isSendOut, isNewSocketOut]
      | unparsable raw => simp [step, handleMessage, isSendOut, isNewSocketOut]
  | wsClose k =>
      constructor
      · simp only [step, onClose, startDisconnectionTimer, clearDisconnectionTimer,
          stopHeartbeat]
        rw [if_neg (by simp [hman])]
        exact ⟨hman, hcur, rfl⟩
      · simp only [step, onClose, startDisconnectionTimer, clearDisconnectionTimer,
          stopHeartbeat]
        rw [if_neg (by simp [hman])]
        simp [isSendOut, isNewSocketOut]
  | wsError k =>
      constructor
      · simp only [step, onError]
        split <;> exact ⟨hman, hcur, hping⟩
      · simp [step, onError, isSendOut, isNewSocketOut]
  | graceFire =>
      constructor
      · simp only [step, graceFireStep, updateStableStatus_eq]
        split <;> exact ⟨hman, hcur, hping⟩
      · simp only [step, graceFireStep, updateStableStatus_eq]
        split <;> simp [isSendOut, isNewSocketOut]
  | reconFire d =>
      constructor
      · simp only [step, reconFireStep]
        rw [if_neg (by simp [hman])]
        exact ⟨hman, hcur, hping⟩
      · simp only [step, reconFireStep]
        rw [if_neg (by simp [hman])]
        rfl
  | pingFire =>
      exfalso
      simp only [okB, enabled, Bool.and_eq_true] at hok
      rw [hping] at hok
      exact Bool.false_ne_true hok.2
  | callConnect => simp [evIsConnectCall] at hnc
  | callDisconnect =>
      by_cases h : s.stableConnectionStatus = "disconnected" <;>
        refine ⟨?_, ?_⟩ <;>
          simp [step, disconnect, updateStableStatus, clearDisconnectionTimer,
            stopHeartbeat, h, hcur, hman, hping, quiesced, isSendOut, isNewSocketOut]

/-- C5: `disconnect()` marks the session manually terminated, stops the
heartbeat, clears the grace-period timer, sets the stable status to
`disconnected` immediately, drops the transport handle and closes the
transport with normal-closure code 1000; afterwards, along every valid
trace of transport events, timer firings and further `disconnect()`
calls (no explicit `connect()`), nothing is ever sent on the transport —
in particular no heartbeat — and no connection attempt is ever started,
regardless of already-scheduled reconnect timers. -/
theorem c5_disconnect_suppresses (cfg : Config) (s : WSState) (last : Nat)
    (tr : List (Nat × Ev))
    (hnc : hasEv evIsConnectCall tr = false)
    (hv : validFrom cfg (disconnect s).1 last tr = true) :
    (disconnect s).1.isManualDisconnect = true ∧
    (disconnect s).1.pingActive = false ∧
    (disconnect s).1.disconnectionTimer = none ∧
    (disconnect s).1.stableConnectionStatus = "disconnected" ∧
    (disconnect s).1.cur = none ∧
    (s.cur = none ∨ Out.closeTransport (some 1000) ∈ (disconnect s).2) ∧
    (run cfg (disconnect s).1 tr).2.all
      (fun p => !isSendOut p.2 && !isNewSocketOut p.2) = true := by
  obtain ⟨⟨hman, hcur, hping⟩, htimer, hstable, hclose⟩ := disconnect_spec s
  refine ⟨hman, hping, htimer, hstable, hcur, hclose, ?_⟩
  have hall : ∀ p ∈ tr, (!evIsConnectCall p.2) = true := by
    intro p hp
    simp only [hasEv, List.any_eq_false] at hnc
    simp [hnc p hp]
  have hinv := run_inv cfg (fun e => !evIsConnectCall e)
    (fun s acc => quiesced s ∧ acc.all (fun p => !isSendOut p.2 && !isNewSocketOut p.2) = true)
    (by
      intro s acc last t e ha hok hR
      have h := c5_step cfg s last t e hok (by simpa using ha) hR.1
      refine ⟨h.1, ?_⟩
      simp only [List.all_append, List.all_map, Bool.and_eq_true]
      exact ⟨hR.2, by simpa [Function.comp] using h.2⟩)
    tr (disconnect s).1 last [] hv hall ⟨⟨hman, hcur, hping⟩, rfl⟩
  simpa using hinv.2

/-- A post-disconnect zombie trace: the discarded socket still reports
its close, and later the grace timer that close re-armed fires. -/
def c5trace : List (Nat × Ev) := [(0, Ev.wsClose 0), (10000, Ev.graceFire)]

theorem c5_witness :
    (disconnect connState).1.isManualDisconnect = true ∧
    (disconnect connState).1.pingActive = false ∧
    (disconnect connState).1.disconnectionTimer = none ∧
    (disconnect connState).1.stableConnectionStatus = "disconnected" ∧
    (disconnect connState).1.cur = none ∧
    (connState.cur = none ∨ Out.closeTransport (some 1000) ∈ (disconnect connState).2) ∧
    (run cfg0 (disconnect connState).1 c5trace).2.all
      (fun p => !isSendOut p.2 && !isNewSocketOut p.2) = true :=
  c5_disconnect_suppresses cfg0 connState 0 c5trace (by decide) (by decide)

/-! ## C4: reconnection is bounded and uses the fixed delay -/

theorem onError_recon_fields (s : WSState) (k : Nat) :
    (onError s k).1.reconTimers = s.reconTimers ∧
    (onError s k).1.reconnectAttempts = s.reconnectAttempts ∧
    (onError s k).2.countP isNewSocketOut = 0 := by
  simp only [onError]
  split <;> simp [isNewSocketOut]

theorem handleMessage_countP (m : InMsg) :
    (handleMessage m).countP isNewSocketOut = 0 := by
  cases m with
  | parsable j =>
      simp only [handleMessage]
      split <;> simp [isNewSocketOut]
  | unparsable raw => simp [handleMessage, isNewSocketOut]

theorem graceFireStep_recon_fields (s : WSState) :
    (graceFireStep s).1.reconTimers = s.reconTimers ∧
    (graceFireStep s).1.reconnectAttempts = s.reconnectAttempts ∧
    (graceFireStep s).2.countP isNewSocketOut = 0 := by
  simp only [graceFireStep, updateStableStatus_eq]
  split <;> simp [isNewSocketOut]

theorem send_countP (s : WSState) (p : Payload) :
    (send s p).2.countP isNewSocketOut = 0 := by
  simp only [send]
  split <;> simp [isNewSocketOut]

theorem disconnect_recon_fields (s : WSState) :
    (disconnect s).1.reconTimers = s.reconTimers ∧
    (disconnect s).1.reconnectAttempts = s.reconnectAttempts ∧
    (disconnect s).2.countP isNewSocketOut = 0 := by
  by_cases h : s.stableConnectionStatus = "disconnected" <;> cases hc : s.cur <;>
    simp [disconnect, updateStableStatus, clearDisconnectionTimer, stopHeartbeat,
      h, hc, isNewSocketOut]

theorem onClose_recon_fields (cfg : Config) (s : WSState) (now k : Nat) :
    ((¬ s.isManualDisconnect ∧ s.reconnectAttempts < cfg.maxReconnectAttempts) →
      (onClose cfg s now k).1.reconTimers = s.reconTimers ++ [now + cfg.reconnectInterval] ∧
      (onClose cfg s now k).1.reconnectAttempts = s.reconnectAttempts + 1) ∧
    (¬ (¬ s.isManualDisconnect ∧ s.reconnectAttempts < cfg.maxReconnectAttempts) →
      (onClose cfg s now k).1.reconTimers = s.reconTimers ∧
      (onClose cfg s now k).1.reconnectAttempts = s.reconnectAttempts) ∧
    (onClose cfg s now k).2.countP isNewSocketOut = 0 := by
  refine ⟨fun h => ?_, fun h => ?_, ?_⟩ <;>
    simp only [onClose, startDisconnectionTimer, clearDisconnectionTimer,
      stopHeartbeat, scheduleReconnection]
  · rw [if_pos (by simpa using h)]
    exact ⟨rfl, rfl⟩
  · rw [if_neg (by simpa using h)]
    exact ⟨rfl, rfl⟩
  · split <;> simp [isNewSocketOut]

theorem connect_recon_fields (cfg : Config) (s : WSState) :
    (connect cfg s).1.reconTimers = s.reconTimers ∧
    (connect cfg s).1.reconnectAttempts = s.reconnectAttempts ∧
    (connect cfg s).2.countP isNewSocketOut ≤ 1 := by
  simp only [connect]
  split
  · cases s.cur <;> simp [isNewSocketOut]
  · simp [isNewSocketOut]

theorem reconFireStep_recon_fields (cfg : Config) (s : WSState) (d : Nat) :
    (reconFireStep cfg s d).1.reconTimers = s.reconTimers.erase d ∧
    (reconFireStep cfg s d).1.reconnectAttempts = s.reconnectAttempts ∧
    (reconFireStep cfg s d).2.countP isNewSocketOut ≤ 1 := by
  simp only [reconFireStep]
  split
  · exact ⟨(connect_recon_fields cfg _).1, (connect_recon_fields cfg _).2.1,
      (connect_recon_fields cfg _).2.2⟩
  · exact ⟨rfl, rfl, by simp⟩

theorem okB_reconFire_mem (s : WSState) (last t d : Nat)
    (hok : okB s last t (Ev.reconFire d) = true) :
    d ∈ s.reconTimers := by
  simp only [okB, enabled, Bool.and_eq_true] at hok
  have hc := hok.2.1
  simpa using hc

/-- C4: after an unexpected close the client schedules exactly one
reconnection attempt, after the fixed `reconnectInterval` (never a
back-off); and along every valid trace of failing attempts (no
successful `open`, no explicit `connect()` call), starting with no
pending reconnect timer, the number of connection attempts started plus
the initial attempt counter never exceeds the configured maximum — so a
fresh client makes at most `maxReconnectAttempts` automatic attempts,
and once the counter has reached the maximum no automatic attempt occurs
at all until an explicit `connect()`. -/
theorem c4_reconnection_bounded (cfg : Config) (s sc : WSState) (last t k : Nat)
    (tr : List (Nat × Ev))
    (hattempts : s.reconnectAttempts ≤ cfg.maxReconnectAttempts)
    (htimers : s.reconTimers = [])
    (hv : validFrom cfg s last tr = true)
    (hnc : hasEv evIsConnectCall tr = false)
    (hno : hasEv evIsOpen tr = false) :
    (step cfg sc t (Ev.wsClose k)).2 =
      Out.emit "close" EmitData.eventObj ::
        (if ¬ sc.isManualDisconnect ∧ sc.reconnectAttempts < cfg.maxReconnectAttempts then
          [Out.scheduleReconnect cfg.reconnectInterval]
        else []) ∧
    newSocketCount (run cfg s tr).2 + s.reconnectAttempts ≤ cfg.maxReconnectAttempts ∧
    (s.reconnectAttempts = cfg.maxReconnectAttempts →
      newSocketCount (run cfg s tr).2 = 0) := by
  have hcount : newSocketCount (run cfg s tr).2 + (run cfg s tr).1.reconTimers.length +
      s.reconnectAttempts ≤ (run cfg s tr).1.reconnectAttempts ∧
      (run cfg s tr).1.reconnectAttempts ≤ cfg.maxReconnectAttempts := by
    have hall : ∀ p ∈ tr, (!evIsConnectCall p.2 && !evIsOpen p.2) = true := by
      intro p hp
      simp only [hasEv, List.any_eq_false] at hnc hno
      simp [hnc p hp, hno p hp]
    have hinv := run_inv cfg (fun e => !evIsConnectCall e && !evIsOpen e)
      (fun s' acc => newSocketCount acc + s'.reconTimers.length + s.reconnectAttempts ≤
          s'.reconnectAttempts ∧ s'.reconnectAttempts ≤ cfg.maxReconnectAttempts)
      (by
        intro s' acc last' t' e ha hok hR
        obtain ⟨hR1, hR2⟩ := hR
        have hacc : newSocketCount (acc ++ (step cfg s' t' e).2.map (fun o => (t', o))) =
            newSocketCount acc + (step cfg s' t' e).2.countP isNewSocketOut := by
          simp only [newSocketCount, List.countP_append, List.countP_map]
          rfl
        rw [hacc]
        cases e with
        | wsOpen k' => simp [evIsOpen] at ha
        | callConnect => simp [evIsConnectCall] at ha
        | wsMessage k' m =>
            have hc := handleMessage_countP m
            simp only [step] at hc ⊢
            rw [hc]
            exact ⟨by omega, hR2⟩
        | wsError k' =>
            obtain ⟨hf1, hf2, hf3⟩ := onError_recon_fields s' k'
            simp only [step] at hf1 hf2 hf3 ⊢
            rw [hf1, hf2, hf3]
            exact ⟨by omega, by omega⟩
        | graceFire =>
            obtain ⟨hf1, hf2, hf3⟩ := graceFireStep_recon_fields s'
            simp only [step] at hf1 hf2 hf3 ⊢
            rw [hf1, hf2, hf3]
            exact ⟨by omega, by omega⟩
        | pingFire =>
            have hc := send_countP s' (Payload.str "ping")
            simp only [step, pingFireStep] at hc ⊢
            rw [hc]
            exact ⟨by omega, hR2⟩
        | callDisconnect =>
            obtain ⟨hf1, hf2, hf3⟩ := disconnect_recon_fields s'
            simp only [step] at hf1 hf2 hf3 ⊢
            rw [hf1, hf2, hf3]
            exact ⟨by omega, by omega⟩
        | wsClose k' =>
            obtain ⟨hpos, hneg, hcnt⟩ := onClose_recon_fields cfg s' t' k'
            simp only [step] at hpos hneg hcnt ⊢
            rw [hcnt]
            by_cases hguard : ¬ s'.isManualDisconnect ∧
                s'.reconnectAttempts < cfg.maxReconnectAttempts
            · obtain ⟨hf1, hf2⟩ := hpos hguard
              rw [hf1, hf2]
              have := hguard.2
              simp only [List.length_append, List.length_cons, List.length_nil]
              exact ⟨by omega, by omega⟩
            · obtain ⟨hf1, hf2⟩ := hneg hguard
              rw [hf1, hf2]
              exact ⟨by omega, by omega⟩
        | reconFire d =>
            have hmem := okB_reconFire_mem s' last' t' d hok
            have hlen : (s'.reconTimers.erase d).length = s'.reconTimers.length - 1 :=
              List.length_erase_of_mem hmem
            have hpos : 1 ≤ s'.reconTimers.length := List.length_pos_of_mem hmem
            obtain ⟨hf1, hf2, hf3⟩ := reconFireStep_recon_fields cfg s' d
            simp only [step] at hf1 hf2 hf3 ⊢
            rw [hf1, hf2, hlen]
            exact ⟨by omega, by omega⟩)
      tr s last [] hv hall ⟨by simp [newSocketCount, htimers], hattempts⟩
    simpa using hinv
  refine ⟨?_, by omega, by omega⟩
  simp only [step, onClose, startDisconnectionTimer, clearDisconnectionTimer,
    stopHeartbeat, scheduleReconnection]
  split <;> rfl

/-- A failing episode: close at t=0 schedules a retry; it fires at
t=3000, the fresh socket errors and closes, scheduling the next retry. -/
def c4trace : List (Nat × Ev) :=
  [(0, Ev.wsClose 0), (3000, Ev.reconFire 3000),
   (3050, Ev.wsError 1), (3050, Ev.wsClose 1)]

theorem c4_witness :
    (step cfg0 connState 0 (Ev.wsClose 0)).2 =
      Out.emit "close" EmitData.eventObj ::
        (if ¬ connState.isManualDisconnect ∧
            connState.reconnectAttempts < cfg0.maxReconnectAttempts then
          [Out.scheduleReconnect cfg0.reconnectInterval]
        else []) ∧
    newSocketCount (run cfg0 connState c4trace).2 + connState.reconnectAttempts ≤
      cfg0.maxReconnectAttempts ∧
    (connState.reconnectAttempts = cfg0.maxReconnectAttempts →
      newSocketCount (run cfg0 connState c4trace).2 = 0) :=
  c4_reconnection_bounded cfg0 connState connState 0 0 0 c4trace
    (by decide) (by decide) (by decide) (by decide) (by decide)

/-! ## C3: only a first-attempt error rejects the `connect()` promise -/

theorem rejectProm_get? (ps : List PromState) (i p : Nat)
    (h : (rejectProm ps i)[p]? = some PromState.rejected) :
    ps[p]? = some PromState.rejected ∨ (p = i ∧ ps[p]? = some PromState.pending) := by
  unfold rejectProm at h
  split at h
  · rename_i hpend
    rw [List.getElem?_set] at h
    by_cases hip : i = p
    · subst hip
      exact Or.inr ⟨rfl, hpend⟩
    · rw [if_neg hip] at h
      exact Or.inl h
  · exact Or.inl h

theorem resolveProm_get? (ps : List PromState) (i p : Nat)
    (h : (resolveProm ps i)[p]? = some PromState.rejected) :
    ps[p]? = some PromState.rejected := by
  unfold resolveProm at h
  split at h
  · rename_i hpend
    rw [List.getElem?_set] at h
    by_cases hip : i = p
    · subst hip
      rw [if_pos rfl] at h
      split at h <;> simp at h
    · rw [if_neg hip] at h
      exact h
  · exact h

theorem append_one_get? (ps : List PromState) (v : PromState) (p : Nat)
    (h : (ps ++ [v])[p]? = some PromState.rejected) (hv : v ≠ PromState.rejected) :
    ps[p]? = some PromState.rejected := by
  rw [List.getElem?_append] at h
  split at h
  · exact h
  · cases hq : p - ps.length with
    | zero =>
        rw [hq] at h
        simp only [List.getElem?_cons_zero, Option.some.injEq] at h
        exact absurd h hv
    | succ n =>
        rw [hq] at h
        simp at h

theorem onOpen_promises (s : WSState) (k : Nat) :
    ∃ i, (onOpen s k).1.promises = resolveProm s.promises i := by
  simp only [onOpen, updateStableStatus]
  split <;> exact ⟨_, rfl⟩

theorem onOpen_countP (s : WSState) (k : Nat) :
    (onOpen s k).2.countP isNewSocketOut = 0 := by
  simp only [onOpen, updateStableStatus]
  split <;> simp [send_countP, isNewSocketOut, List.countP_append]

theorem onClose_promises (cfg : Config) (s : WSState) (now k : Nat) :
    (onClose cfg s now k).1.promises = s.promises := by
  simp only [onClose, startDisconnectionTimer, clearDisconnectionTimer,
    stopHeartbeat, scheduleReconnection]
  split <;> rfl

theorem graceFireStep_promises (s : WSState) :
    (graceFireStep s).1.promises = s.promises := by
  simp only [graceFireStep, updateStableStatus_eq]
  split <;> rfl

theorem disconnect_promises (s : WSState) :
    (disconnect s).1.promises = s.promises := by
  by_cases h : s.stableConnectionStatus = "disconnected" <;> cases hc : s.cur <;>
    simp [disconnect, updateStableStatus, clearDisconnectionTimer, stopHeartbeat, h, hc]

theorem connect_promises (cfg : Config) (s : WSState) :
    ∃ v, (connect cfg s).1.promises = s.promises ++ [v] ∧ v ≠ PromState.rejected := by
  simp only [connect]
  split
  · exact ⟨PromState.pending, rfl, by simp⟩
  · exact ⟨PromState.resolved, rfl, by simp⟩

theorem not_mem_newSocket_of_countP_zero {l : List Out}
    (h : l.countP isNewSocketOut = 0) (g : Nat) :
    Out.newSocket g ∉ l := by
  rw [List.countP_eq_zero] at h
  intro hmem
  exact h _ hmem (by simp [isNewSocketOut])

theorem connect_newSocket_fresh (cfg : Config) (s : WSState) (g : Nat)
    (hmem : Out.newSocket g ∈ (connect cfg s).2) :
    promIdxOf (connect cfg s).1 g = s.promises.length ∧
    (connect cfg s).1.promises[s.promises.length]? = some PromState.pending ∧
    s.promises[s.promises.length]? = none := by
  by_cases hen : cfg.wsEnabled
  · cases hc : s.cur with
    | none =>
        simp only [connect, if_pos hen, hc, List.nil_append,
          List.mem_singleton] at hmem ⊢
        injection hmem with hg
        subst hg
        refine ⟨?_, List.getElem?_concat_length _ _, by simp⟩
        simp only [promIdxOf, List.getElem?_concat_length]
    | some j =>
        simp only [connect, if_pos hen, hc, List.singleton_append,
          List.mem_cons, List.mem_singleton] at hmem ⊢
        rcases hmem with hg | hg | hg
        · exact absurd hg (by simp)
        · injection hg with hg
          subst hg
          refine ⟨?_, List.getElem?_concat_length _ _, by simp⟩
          simp only [promIdxOf, List.getElem?_concat_length]
        · exact absurd hg (List.not_mem_nil _)
  · simp only [connect, if_neg hen] at hmem
    exact absurd hmem (List.not_mem_nil _)

/-- C3: the promise of a `connect()` call is rejected only by a transport
error at reconnect-attempt counter 0 on the very socket that call
constructed, and only from the pending state (so a retry error can never
reject the original caller's promise, and a settled promise stays
settled); every transport error is surfaced as exactly one `error`
emission while leaving every other part of the client state untouched;
and each started connection attempt binds its socket to a promise index
that did not exist before the call, never to an earlier caller's
promise. -/
theorem c3_promise_rejection (cfg : Config) (s : WSState) (t : Nat) (e : Ev)
    (p g k : Nat) :
    ((step cfg s t e).1.promises[p]? = some PromState.rejected →
      s.promises[p]? = some PromState.rejected ∨
      (∃ k', e = Ev.wsError k' ∧ s.reconnectAttempts = 0 ∧ promIdxOf s k' = p ∧
        s.promises[p]? = some PromState.pending)) ∧
    (e = Ev.wsError k →
      (step cfg s t e).2 = [Out.emit "error" EmitData.eventObj] ∧
      (step cfg s t e).1.socks = s.socks ∧
      (step cfg s t e).1.cur = s.cur ∧
      (step cfg s t e).1.stableConnectionStatus = s.stableConnectionStatus ∧
      (step cfg s t e).1.reconnectAttempts = s.reconnectAttempts ∧
      (step cfg s t e).1.reconTimers = s.reconTimers ∧
      (step cfg s t e).1.disconnectionTimer = s.disconnectionTimer ∧
      (step cfg s t e).1.pingActive = s.pingActive) ∧
    (Out.newSocket g ∈ (step cfg s t e).2 →
      promIdxOf (step cfg s t e).1 g = s.promises.length ∧
      (step cfg s t e).1.promises[s.promises.length]? = some PromState.pending ∧
      s.promises[s.promises.length]? = none) := by
  refine ⟨?_, ?_, ?_⟩
  · intro h
    cases e with
    | wsOpen k' =>
        obtain ⟨i, hi⟩ := onOpen_promises s k'
        simp only [step] at h
        rw [hi] at h
        exact Or.inl (resolveProm_get? _ _ _ h)
    | wsMessage k' m => exact Or.inl h
    | wsClose k' =>
        simp only [step] at h
        rw [onClose_promises] at h
        exact Or.inl h
    | wsError k' =>
        simp only [step, onError] at h
        by_cases hz : s.reconnectAttempts = 0
        · rw [if_pos hz] at h
          rcases rejectProm_get? _ _ _ h with h' | ⟨hip, hpend⟩
          · exact Or.inl h'
          · exact Or.inr ⟨k', rfl, hz, hip.symm, hpend⟩
        · rw [if_neg hz] at h
          exact Or.inl h
    | graceFire =>
        simp only [step] at h
        rw [graceFireStep_promises] at h
        exact Or.inl h
    | reconFire d =>
        simp only [step, reconFireStep] at h
        split at h
        · obtain ⟨v, hv, hvne⟩ := connect_promises cfg _
          rw [hv] at h
          exact Or.inl (append_one_get? _ _ _ h hvne)
        · exact Or.inl h
    | pingFire => exact Or.inl h
    | callConnect =>
        simp only [step] at h
        obtain ⟨v, hv, hvne⟩ := connect_promises cfg s
        rw [hv] at h
        exact Or.inl (append_one_get? _ _ _ h hvne)
    | callDisconnect =>
        simp only [step] at h
        rw [disconnect_promises] at h
        exact Or.inl h
  · rintro rfl
    simp only [step, onError]
    split <;> simp
  · intro hmem
    cases e with
    | wsOpen k' =>
        exact absurd hmem (not_mem_newSocket_of_countP_zero (onOpen_countP s k') g)
    | wsMessage k' m =>
        exact absurd hmem (not_mem_newSocket_of_countP_zero (handleMessage_countP m) g)
    | wsClose k' =>
        exact absurd hmem
          (not_mem_newSocket_of_countP_zero (onClose_recon_fields cfg s t k').2.2 g)
    | wsError k' =>
        exact absurd hmem
          (not_mem_newSocket_of_countP_zero (onError_recon_fields s k').2.2 g)
    | graceFire =>
        exact absurd hmem
          (not_mem_newSocket_of_countP_zero (graceFireStep_recon_fields s).2.2 g)
    | pingFire =>
        exact absurd hmem
          (not_mem_newSocket_of_countP_zero (send_countP s (Payload.str "ping")) g)
    | callDisconnect =>
        exact absurd hmem
          (not_mem_newSocket_of_countP_zero (disconnect_recon_fields s).2.2 g)
    | callConnect => exact connect_newSocket_fresh cfg s g hmem
    | reconFire d =>
        simp only [step, reconFireStep] at hmem ⊢
        split at hmem
        · rename_i hguard
          rw [if_pos hguard]
          exact connect_newSocket_fresh cfg _ g hmem
        · simp at hmem

/-- A first connection attempt about to fail: one connecting socket,
counter at zero, its promise pending. -/
def connectingState : WSState :=
  { socks := [⟨Ready.CONNECTING, 0⟩]
    cur := some 0
    reconnectAttempts := 0
    isManualDisconnect := false
    pingActive := false
    disconnectionTimer := none
    reconTimers := []
    stableConnectionStatus := "disconnected"
    promises := [PromState.pending] }

theorem c3_witness :
    ((step cfg0 connectingState 0 (Ev.wsError 0)).1.promises[0]? =
        some PromState.rejected →
      connectingState.promises[0]? = some PromState.rejected ∨
      (∃ k', Ev.wsError 0 = Ev.wsError k' ∧ connectingState.reconnectAttempts = 0 ∧
        promIdxOf connectingState k' = 0 ∧
        connectingState.promises[0]? = some PromState.pending)) ∧
    (Ev.wsError 0 = Ev.wsError 0 →
      (step cfg0 connectingState 0 (Ev.wsError 0)).2 =
        [Out.emit "error" EmitData.eventObj] ∧
      (step cfg0 connectingState 0 (Ev.wsError 0)).1.socks = connectingState.socks ∧
      (step cfg0 connectingState 0 (Ev.wsError 0)).1.cur = connectingState.cur ∧
      (step cfg0 connectingState 0 (Ev.wsError 0)).1.stableConnectionStatus =
        connectingState.stableConnectionStatus ∧
      (step cfg0 connectingState 0 (Ev.wsError 0)).1.reconnectAttempts =
        connectingState.reconnectAttempts ∧
      (step cfg0 connectingState 0 (Ev.wsError 0)).1.reconTimers =
        connectingState.reconTimers ∧
      (step cfg0 connectingState 0 (Ev.wsError 0)).1.disconnectionTimer =
        connectingState.disconnectionTimer ∧
      (step cfg0 connectingState 0 (Ev.wsError 0)).1.pingActive =
        connectingState.pingActive) ∧
    (Out.newSocket 1 ∈ (step cfg0 connectingState 0 (Ev.wsError 0)).2 →
      promIdxOf (step cfg0 connectingState 0 (Ev.wsError 0)).1 1 =
        connectingState.promises.length ∧
      (step cfg0 connectingState 0 (Ev.wsError 0)).1.promises[connectingState.promises.length]? =
        some PromState.pending ∧
      connectingState.promises[connectingState.promises.length]? = none) :=
  c3_promise_rejection cfg0 connectingState 0 (Ev.wsError 0) 0 1 0

/-! ## C2: an unanswered close flips the stable status exactly once -/

/-- Episode invariant, armed phase: still `connected`, nothing emitted,
grace timer pending with a deadline no earlier than `gdl`. -/
def B1 (gdl : Nat) (s : WSState) (E : List (Nat × String)) : Prop :=
  s.stableConnectionStatus = "connected" ∧ E = [] ∧
  ∃ d, s.disconnectionTimer = some d ∧ gdl ≤ d

/-- Episode invariant, fired phase: `disconnected`, exactly one emission
(with payload `disconnected`, at or after `gdl`), any re-armed timer
again no earlier than `gdl`. -/
def B2 (gdl : Nat) (s : WSState) (E : List (Nat × String)) : Prop :=
  s.stableConnectionStatus = "disconnected" ∧
  (∃ te, E = [(te, "disconnected")] ∧ gdl ≤ te) ∧
  (s.disconnectionTimer = none ∨ ∃ d, s.disconnectionTimer = some d ∧ gdl ≤ d)

theorem okB_last_le (s : WSState) (last t : Nat) (e : Ev)
    (hok : okB s last t e = true) : last ≤ t := by
  simp only [okB, Bool.and_eq_true, decide_eq_true_eq] at hok
  exact hok.1.1

theorem okB_graceFire_le (s : WSState) (last t : Nat)
    (hok : okB s last t Ev.graceFire = true) :
    ∀ d, s.disconnectionTimer = some d → d ≤ t := by
  simp only [okB, enabled, Bool.and_eq_true] at hok
  intro d hd
  have h := hok.2
  rw [hd] at h
  simpa using h

theorem evIsGrace_eq {e : Ev} (h : evIsGrace e = true) : e = Ev.graceFire := by
  cases e <;> simp [evIsGrace] at h ⊢

theorem onClose_timer (cfg : Config) (s : WSState) (now k : Nat) :
    (onClose cfg s now k).1.disconnectionTimer = some (now + cfg.gracePeriod) ∧
    (onClose cfg s now k).1.stableConnectionStatus = s.stableConnectionStatus ∧
    stableOuts (onClose cfg s now k).2 = [] := by
  simp only [onClose, startDisconnectionTimer, clearDisconnectionTimer,
    stopHeartbeat, scheduleReconnection]
  split <;>
    simp [stableOuts_nil, stableOuts_cons_eventObj, stableOuts_cons_scheduleReconnect]

/-- Any event other than `open`, the grace-timer expiry and `disconnect()`
keeps the stable status, emits no `stableStatusChange`, and either leaves
the grace timer untouched or re-arms it for `now + gracePeriod` (the
close of any socket). -/
theorem c2_quiet_step (cfg : Config) (s : WSState) (t : Nat) (e : Ev)
    (ho : evIsOpen e = false) (hgr : evIsGrace e = false)
    (hd : evIsDisconnectCall e = false) :
    (step cfg s t e).1.stableConnectionStatus = s.stableConnectionStatus ∧
    stableOuts (step cfg s t e).2 = [] ∧
    ((step cfg s t e).1.disconnectionTimer = s.disconnectionTimer ∨
     (step cfg s t e).1.disconnectionTimer = some (t + cfg.gracePeriod)) := by
  cases e with
  | wsOpen k => simp [evIsOpen] at ho
  | graceFire => simp [evIsGrace] at hgr
  | callDisconnect => simp [evIsDisconnectCall] at hd
  | wsMessage k m =>
      refine ⟨rfl, ?_, Or.inl rfl⟩
      cases m with
      | parsable j =>
          simp only [step, handleMessage]
          split <;> simp [stableOuts, stableOut?]
      | unparsable raw => simp [step, handleMessage, stableOuts, stableOut?]
  | wsClose k =>
      obtain ⟨h1, h2, h3⟩ := onClose_timer cfg s t k
      exact ⟨h2, h3, Or.inr h1⟩
  | wsError k =>
      simp only [step, onError]
      split <;> exact ⟨rfl, by simp [stableOuts, stableOut?], Or.inl rfl⟩
  | reconFire d =>
      simp only [step, reconFireStep, connect]
      split
      · split
        · cases s.cur <;> exact ⟨rfl, by simp [stableOuts, stableOut?], Or.inl rfl⟩
        · exact ⟨rfl, rfl, Or.inl rfl⟩
      · exact ⟨rfl, rfl, Or.inl rfl⟩
  | pingFire => exact ⟨rfl, stableOuts_send s (Payload.str "ping"), Or.inl rfl⟩
  | callConnect =>
      simp only [step, connect]
      split
      · cases s.cur <;> exact ⟨rfl, by simp [stableOuts, stableOut?], Or.inl rfl⟩
      · exact ⟨rfl, rfl, Or.inl rfl⟩

theorem c2_grace_step (cfg : Config) (s : WSState) (t : Nat) :
    stableOuts (step cfg s t Ev.graceFire).2 =
      (if s.stableConnectionStatus = "disconnected" then [] else ["disconnected"]) ∧
    (step cfg s t Ev.graceFire).1.stableConnectionStatus = "disconnected" ∧
    (step cfg s t Ev.graceFire).1.disconnectionTimer = none := by
  by_cases h : s.stableConnectionStatus = "disconnected" <;>
    simp [step, graceFireStep, updateStableStatus, h, stableOuts_nil,
      stableOuts_cons_statusChange]

/-- Invariant propagation for a whole episode suffix: the state stays in
`B1 ∨ B2`, and once the grace timer has fired (or the fired phase was
already reached) the run ends in `B2`. -/
theorem c2_aux (cfg : Config) (gdl : Nat) :
    ∀ (tr : List (Nat × Ev)) (s : WSState) (last : Nat) (acc : List (Nat × Out)),
      validFrom cfg s last tr = true →
      gdl ≤ last + cfg.gracePeriod →
      (∀ q ∈ tr, evIsOpen q.2 = false ∧ evIsDisconnectCall q.2 = false) →
      (B1 gdl s (stableEmits acc) ∨ B2 gdl s (stableEmits acc)) →
      ((B1 gdl (run cfg s tr).1 (stableEmits (acc ++ (run cfg s tr).2)) ∨
        B2 gdl (run cfg s tr).1 (stableEmits (acc ++ (run cfg s tr).2))) ∧
       ((hasEv evIsGrace tr = true ∨ B2 gdl s (stableEmits acc)) →
        B2 gdl (run cfg s tr).1 (stableEmits (acc ++ (run cfg s tr).2))))
  | [], s, last, acc, _, _, _, hR => by
      refine ⟨by simpa [run] using hR, ?_⟩
      rintro (hg | hB2)
      · simp [hasEv] at hg
      · simpa [run] using hB2
  | (t, e) :: rest, s, last, acc, hv, hgd, hall, hR => by
      simp only [validFrom, Bool.and_eq_true] at hv
      obtain ⟨hok, hv'⟩ := hv
      obtain ⟨ho, hd⟩ := hall (t, e) (List.mem_cons_self _ _)
      have hall' : ∀ q ∈ rest, evIsOpen q.2 = false ∧ evIsDisconnectCall q.2 = false :=
        fun q hq => hall q (List.mem_cons_of_mem _ hq)
      have hlast := okB_last_le s last t e hok
      have hgd' : gdl ≤ t + cfg.gracePeriod := le_trans hgd (by omega)
      have hE : stableEmits (acc ++ (step cfg s t e).2.map (fun o => (t, o))) =
          stableEmits acc ++ (stableOuts (step cfg s t e).2).map (fun q => (t, q)) := by
        rw [stableEmits_append, stableEmits_map_time]
      have hstep : (B1 gdl (step cfg s t e).1
            (stableEmits (acc ++ (step cfg s t e).2.map (fun o => (t, o)))) ∨
          B2 gdl (step cfg s t e).1
            (stableEmits (acc ++ (step cfg s t e).2.map (fun o => (t, o))))) ∧
          (e = Ev.graceFire ∨ B2 gdl s (stableEmits acc) →
            B2 gdl (step cfg s t e).1
              (stableEmits (acc ++ (step cfg s t e).2.map (fun o => (t, o))))) := by
        by_cases hgr : e = Ev.graceFire
        · subst hgr
          obtain ⟨hb1, hb2, hb3⟩ := c2_grace_step cfg s t
          rcases hR with hB1 | hB2
          · obtain ⟨hc, hEnil, d, hdl, hdge⟩ := hB1
            have hdt : d ≤ t := okB_graceFire_le s last t hok d hdl
            have hfired : B2 gdl (step cfg s t Ev.graceFire).1
                (stableEmits (acc ++ (step cfg s t Ev.graceFire).2.map (fun o => (t, o)))) := by
              refine ⟨hb2, ⟨t, ?_, by omega⟩, Or.inl hb3⟩
              rw [hE, hEnil, hb1, if_neg (by simp [hc])]
              rfl
            exact ⟨Or.inr hfired, fun _ => hfired⟩
          · obtain ⟨hc, hone, htm⟩ := hB2
            have hfired : B2 gdl (step cfg s t Ev.graceFire).1
                (stableEmits (acc ++ (step cfg s t Ev.graceFire).2.map (fun o => (t, o)))) := by
              refine ⟨hb2, ?_, Or.inl hb3⟩
              rw [hE, hb1, if_pos hc]
              simpa using hone
            exact ⟨Or.inr hfired, fun _ => hfired⟩
        · have hgrb : evIsGrace e = false := by
            cases e <;> simp [evIsGrace] at hgr ⊢
          obtain ⟨hq1, hq2, hq3⟩ := c2_quiet_step cfg s t e ho hgrb hd
          rcases hR with hB1 | hB2
          · obtain ⟨hc, hEnil, d, hdl, hdge⟩ := hB1
            refine ⟨Or.inl ⟨by rw [hq1]; exact hc, by rw [hE, hq2, hEnil]; rfl, ?_⟩,
              ?_⟩
            · rcases hq3 with h | h
              · exact ⟨d, by rw [h]; exact hdl, hdge⟩
              · exact ⟨t + cfg.gracePeriod, h, hgd'⟩
            · rintro (hcontr | hB2)
              · exact absurd hcontr hgr
              · obtain ⟨hc2, _, _⟩ := hB2
                rw [hc] at hc2
                simp at hc2
          · obtain ⟨hc, hone, htm⟩ := hB2
            have hB2' : B2 gdl (step cfg s t e).1
                (stableEmits (acc ++ (step cfg s t e).2.map (fun o => (t, o)))) := by
              refine ⟨by rw [hq1]; exact hc, by rw [hE, hq2]; simpa using hone, ?_⟩
              rcases hq3 with h | h
              · rw [h]
                exact htm
              · exact Or.inr ⟨t + cfg.gracePeriod, h, hgd'⟩
            exact ⟨Or.inr hB2', fun _ => hB2'⟩
      have hrec := c2_aux cfg gdl rest (step cfg s t e).1 t
        (acc ++ (step cfg s t e).2.map (fun o => (t, o))) hv' hgd' hall' hstep.1
      constructor
      · have h1 := hrec.1
        simp only [run, List.append_assoc] at h1 ⊢
        exact h1
      · intro hcase
        have h2 : B2 gdl (run cfg (step cfg s t e).1 rest).1
            (stableEmits ((acc ++ (step cfg s t e).2.map (fun o => (t, o))) ++
              (run cfg (step cfg s t e).1 rest).2)) := by
          rcases hcase with hg | hB2
          · simp only [hasEv, List.any_cons, Bool.or_eq_true] at hg
            rcases hg with hg | hg
            · exact hrec.2 (Or.inr (hstep.2 (Or.inl (evIsGrace_eq hg))))
            · exact hrec.2 (Or.inl (by simpa [hasEv] using hg))
          · exact hrec.2 (Or.inr (hstep.2 (Or.inr hB2)))
        simp only [run, List.append_assoc] at h2 ⊢
        exact h2

/-- C2: starting from stable status `connected`, a transport `close` with
no subsequent `open` and no manual disconnect yields at most one
`stableStatusChange` emission; any emission carries payload
`disconnected` and happens at or after close-time plus the grace period;
and if the grace timer does expire during the episode, exactly one such
emission occurs. -/
theorem c2_close_without_reopen (cfg : Config) (s : WSState) (last t₀ k : Nat)
    (tr : List (Nat × Ev))
    (hst : s.stableConnectionStatus = "connected")
    (hv : validFrom cfg s last ((t₀, Ev.wsClose k) :: tr) = true)
    (ho : hasEv evIsOpen tr = false)
    (hd : hasEv evIsDisconnectCall tr = false) :
    (stableEmits (run cfg s ((t₀, Ev.wsClose k) :: tr)).2).length ≤ 1 ∧
    (∀ q ∈ stableEmits (run cfg s ((t₀, Ev.wsClose k) :: tr)).2,
      q.2 = "disconnected" ∧ t₀ + cfg.gracePeriod ≤ q.1) ∧
    (hasEv evIsGrace tr = true →
      ∃ te, stableEmits (run cfg s ((t₀, Ev.wsClose k) :: tr)).2 =
        [(te, "disconnected")] ∧ t₀ + cfg.gracePeriod ≤ te) := by
  simp only [validFrom, Bool.and_eq_true] at hv
  obtain ⟨hok0, hv'⟩ := hv
  obtain ⟨ht1, ht2, ht3⟩ := onClose_timer cfg s t₀ k
  have hall : ∀ q ∈ tr, evIsOpen q.2 = false ∧ evIsDisconnectCall q.2 = false := by
    intro q hq
    simp only [hasEv, List.any_eq_false] at ho hd
    exact ⟨by simpa using ho q hq, by simpa using hd q hq⟩
  have hs1 : (step cfg s t₀ (Ev.wsClose k)).1.stableConnectionStatus =
      s.stableConnectionStatus := ht2
  have hs2 : (step cfg s t₀ (Ev.wsClose k)).1.disconnectionTimer =
      some (t₀ + cfg.gracePeriod) := ht1
  have hs3 : stableOuts (step cfg s t₀ (Ev.wsClose k)).2 = [] := ht3
  have hB1 : B1 (t₀ + cfg.gracePeriod) (step cfg s t₀ (Ev.wsClose k)).1
      (stableEmits ((step cfg s t₀ (Ev.wsClose k)).2.map (fun o => (t₀, o)))) := by
    refine ⟨by rw [hs1]; exact hst, ?_, ⟨t₀ + cfg.gracePeriod, hs2, le_refl _⟩⟩
    rw [stableEmits_map_time, hs3]
    rfl
  have haux := c2_aux cfg (t₀ + cfg.gracePeriod) tr (step cfg s t₀ (Ev.wsClose k)).1 t₀
    ((step cfg s t₀ (Ev.wsClose k)).2.map (fun o => (t₀, o))) hv' (le_refl _) hall
    (Or.inl hB1)
  have hrun1 : (run cfg s ((t₀, Ev.wsClose k) :: tr)).1 =
      (run cfg (step cfg s t₀ (Ev.wsClose k)).1 tr).1 := by
    simp [run]
  have hrun2 : (run cfg s ((t₀, Ev.wsClose k) :: tr)).2 =
      (step cfg s t₀ (Ev.wsClose k)).2.map (fun o => (t₀, o)) ++
        (run cfg (step cfg s t₀ (Ev.wsClose k)).1 tr).2 := by
    simp [run]
  refine ⟨?_, ?_, ?_⟩
  · rcases haux.1 with hB | hB
    · obtain ⟨_, hE, _⟩ := hB
      rw [hrun2, hE]
      simp
    · obtain ⟨_, ⟨te, hE, _⟩, _⟩ := hB
      rw [hrun2, hE]
      simp
  · intro q hq
    rw [hrun2] at hq
    rcases haux.1 with hB | hB
    · obtain ⟨_, hE, _⟩ := hB
      rw [hE] at hq
      simp at hq
    · obtain ⟨_, ⟨te, hE, hte⟩, _⟩ := hB
      rw [hE] at hq
      simp only [List.mem_singleton] at hq
      subst hq
      exact ⟨rfl, hte⟩
  · intro hg
    have hB2 := haux.2 (Or.inl hg)
    obtain ⟨_, ⟨te, hE, hte⟩, _⟩ := hB2
    exact ⟨te, by rw [hrun2, hE], hte⟩

/-- A failing episode that runs to grace expiry: close at t=0, retry at
t=3000 creates a socket that never opens, the grace timer fires at
t=10000. -/
def c2trace : List (Nat × Ev) :=
  [(3000, Ev.reconFire 3000), (10000, Ev.graceFire)]

theorem c2_witness :
    (stableEmits (run cfg0 connState ((0, Ev.wsClose 0) :: c2trace)).2).length ≤ 1 ∧
    (∀ q ∈ stableEmits (run cfg0 connState ((0, Ev.wsClose 0) :: c2trace)).2,
      q.2 = "disconnected" ∧ 0 + cfg0.gracePeriod ≤ q.1) ∧
    (hasEv evIsGrace c2trace = true →
      ∃ te, stableEmits (run cfg0 connState ((0, Ev.wsClose 0) :: c2trace)).2 =
        [(te, "disconnected")] ∧ 0 + cfg0.gracePeriod ≤ te) :=
  c2_close_without_reopen cfg0 connState 0 0 0 c2trace rfl
    (by decide) (by decide) (by decide)

end KbEye
